import Mathlib

/-!
Verification development for the zettle-beer-leaderboard server
(src/server.js, with src/unnamed/part_000 an earlier variant of the same
file).  The JavaScript is embedded shallowly: JSON values become the `Json`
inductive, the process-wide `leaderboard` Map becomes an insertion-ordered
association list, Express handlers become pure functions from the request,
the environment and oracles for the external calls to an output record, and
the `crypto.createHmac(...).digest("hex")` primitive is a function
parameter.  JavaScript numbers are modelled as integers (every quantity in
the claims is integral); `NaN` is the `none` of `Option Int`.
-/

/-- Model of the JavaScript/JSON values the webhook bodies are built from.
Numbers are modelled as `Int` (fractional values are outside the model);
`undefined` is modelled as `Option.none` at use sites, not as a `Json`
constructor. -/
inductive Json where
  | null : Json
  | bool : Bool → Json
  | num : Int → Json
  | str : String → Json
  | arr : List Json → Json
  | obj : List (String × Json) → Json

mutual

/-- Structural equality of `Json` values (the SameValueZero equality used by
a JavaScript `Map` for the string/number keys that occur here). -/
def Json.beq : Json → Json → Bool
  | .null, .null => true
  | .bool a, .bool b => a == b
  | .num a, .num b => a == b
  | .str a, .str b => a == b
  | .arr a, .arr b => Json.beqList a b
  | .obj a, .obj b => Json.beqKVs a b
  | _, _ => false

/-- Elementwise `Json.beq` on lists. -/
def Json.beqList : List Json → List Json → Bool
  | [], [] => true
  | x :: xs, y :: ys => Json.beq x y && Json.beqList xs ys
  | _, _ => false

/-- Elementwise `Json.beq` on key-value lists. -/
def Json.beqKVs : List (String × Json) → List (String × Json) → Bool
  | [], [] => true
  | (k, v) :: xs, (k', v') :: ys => k == k' && Json.beq v v' && Json.beqKVs xs ys
  | _, _ => false

end

mutual

theorem Json.eq_of_beq : ∀ {a b : Json}, Json.beq a b = true → a = b
  | .null, .null, _ => rfl
  | .bool a, .bool b, h => by
      simp only [Json.beq, beq_iff_eq] at h; exact h ▸ rfl
  | .num a, .num b, h => by
      simp only [Json.beq, beq_iff_eq] at h; exact h ▸ rfl
  | .str a, .str b, h => by
      simp only [Json.beq, beq_iff_eq] at h; exact h ▸ rfl
  | .arr a, .arr b, h => by
      have := Json.eqList_of_beq (a := a) (b := b) h
      exact this ▸ rfl
  | .obj a, .obj b, h => by
      have := Json.eqKVs_of_beq (a := a) (b := b) h
      exact this ▸ rfl

theorem Json.eqList_of_beq : ∀ {a b : List Json}, Json.beqList a b = true → a = b
  | [], [], _ => rfl
  | x :: xs, y :: ys, h => by
      simp only [Json.beqList, Bool.and_eq_true] at h
      have h1 := Json.eq_of_beq (a := x) (b := y) h.1
      have h2 := Json.eqList_of_beq (a := xs) (b := ys) h.2
      rw [h1, h2]

theorem Json.eqKVs_of_beq : ∀ {a b : List (String × Json)}, Json.beqKVs a b = true → a = b
  | [], [], _ => rfl
  | (k, v) :: xs, (k', v') :: ys, h => by
      simp only [Json.beqKVs, Bool.and_eq_true, beq_iff_eq] at h
      have h1 := h.1.1
      have h2 := Json.eq_of_beq (a := v) (b := v') h.1.2
      have h3 := Json.eqKVs_of_beq (a := xs) (b := ys) h.2
      rw [h1, h2, h3]

end

mutual

theorem Json.beq_refl : ∀ a : Json, Json.beq a a = true
  | .null => rfl
  | .bool a => by simp [Json.beq]
  | .num a => by simp [Json.beq]
  | .str a => by simp [Json.beq]
  | .arr a => Json.beqList_refl a
  | .obj a => Json.beqKVs_refl a

theorem Json.beqList_refl : ∀ a : List Json, Json.beqList a a = true
  | [] => rfl
  | x :: xs => by
      simp only [Json.beqList, Bool.and_eq_true]
      exact ⟨Json.beq_refl x, Json.beqList_refl xs⟩

theorem Json.beqKVs_refl : ∀ a : List (String × Json), Json.beqKVs a a = true
  | [] => rfl
  | (k, v) :: xs => by
      simp only [Json.beqKVs, Bool.and_eq_true]
      exact ⟨⟨by simp, Json.beq_refl v⟩, Json.beqKVs_refl xs⟩

end

instance : DecidableEq Json := fun a b =>
  if h : Json.beq a b = true then .isTrue (Json.eq_of_beq h)
  else .isFalse (fun he => h (he ▸ Json.beq_refl a))

theorem Json.beq_iff_eq {a b : Json} : Json.beq a b = true ↔ a = b :=
  ⟨Json.eq_of_beq, fun h => h ▸ Json.beq_refl a⟩

/-! ## JavaScript value helpers -/

/-- JavaScript truthiness of a value (`null`, `false`, `0` and `""` are
falsy; every array and object is truthy). -/
def jsTruthy : Json → Bool
  | .null => false
  | .bool b => b
  | .num n => n != 0
  | .str s => !s.isEmpty
  | .arr _ => true
  | .obj _ => true

/-- Truthiness of a possibly-`undefined` value. -/
def optTruthy : Option Json → Bool
  | none => false
  | some j => jsTruthy j

/-- Truthiness of a possibly-absent string (environment variable or request
header): absent and `""` are falsy. -/
def optStrTruthy : Option String → Bool
  | none => false
  | some s => !s.isEmpty

/-- First-match lookup in an object's key-value list. -/
def lookupKV : List (String × Json) → String → Option Json
  | [], _ => none
  | (k, v) :: rest, key => if k == key then some v else lookupKV rest key

/-- Property access `v?.k`: `none` models `undefined` (including access on
any non-object, which yields `undefined` without throwing). -/
def jsGet : Json → String → Option Json
  | .obj kvs, k => lookupKV kvs k
  | _, _ => none

/-- Optional-chained access `v?.k1?.k2`. -/
def jsGet2 (v : Json) (k1 k2 : String) : Option Json :=
  match jsGet v k1 with
  | some w => jsGet w k2
  | none => none

/-- The JavaScript `a || b || ... || default` chain: the first truthy value,
else the default. -/
def firstTruthy : List (Option Json) → Json → Json
  | [], d => d
  | x :: xs, d =>
    match x with
    | some j => if jsTruthy j then j else firstTruthy xs d
    | none => firstTruthy xs d

/-- ASCII whitespace, the relevant fragment of what `String.prototype.trim`
removes. -/
def isWsChar (c : Char) : Bool := c = ' ' ∨ c = '\t' ∨ c = '\n' ∨ c = '\r'

/-- `String.prototype.trim()` (restricted to ASCII whitespace). -/
def jsTrim (s : String) : String :=
  String.mk (((s.data.dropWhile isWsChar).reverse.dropWhile isWsChar).reverse)

/-- Numeric value of a digit list (`none` unless nonempty and all digits). -/
def digitsVal (l : List Char) : Option Nat :=
  if l ≠ [] ∧ l.all Char.isDigit then
    some (l.foldl (fun a c => a * 10 + (c.toNat - 48)) 0)
  else none

/-- `Number(string)`: the trimmed empty string is `0`; an optionally signed
digit string is its value; everything else is `NaN` (`none`).  Fractional,
hex and exponent literals are outside the model (no claim involves them). -/
def strToNumber (s : String) : Option Int :=
  let t := jsTrim s
  if t.isEmpty then some 0
  else
    match t.data with
    | '-' :: ds => (digitsVal ds).map (fun n => -(n : Int))
    | '+' :: ds => (digitsVal ds).map (fun n => (n : Int))
    | ds => (digitsVal ds).map (fun n => (n : Int))

/-- The JavaScript `Number()` coercion, with `none` standing for `NaN`.
`Number([])` is `0`; coercion of other arrays and of objects (which goes
through `toString`) is modelled as `NaN` — no webhook claim exercises it. -/
def jsToNumber : Json → Option Int
  | .null => some 0
  | .bool b => some (if b then 1 else 0)
  | .num n => some n
  | .str s => strToNumber s
  | .arr [] => some 0
  | .arr (_ :: _) => none
  | .obj _ => none

/-! ## Leaderboard store (src/server.js lines 78-90)

`const leaderboard = new Map()` is modelled as an insertion-ordered
association list: `Map.prototype.set` updates an existing key in place and
appends a new key at the end, and iteration follows insertion order. -/

/-- The in-memory leaderboard: product key (a `Json` value — the extracted
name need not be a string) to cumulative quantity, in insertion order. -/
abbrev Board : Type := List (Json × Int)

/-- `bump(name, qty)` (src/server.js lines 81-83):
`leaderboard.set(name, (leaderboard.get(name) || 0) + qty)`. -/
def bump (name : Json) (qty : Int) : Board → Board
  | [] => [(name, qty)]
  | (n, c) :: rest =>
    if Json.beq n name then (n, c + qty) :: rest else (n, c) :: bump name qty rest

/-- `leaderboard.get(name)`. -/
def getCount : Board → Json → Option Int
  | [], _ => none
  | (n, c) :: rest, name => if Json.beq n name then some c else getCount rest name

/-- `leaderboard.get(name) || 0` (the count with a default of `0`). -/
def countD (b : Board) (name : Json) : Int := (getCount b name).getD 0

/-- Whether a product key is present in the leaderboard. -/
def hasKey (b : Board) (name : Json) : Bool := (getCount b name).isSome

/-- Apply a list of `(name, qty)` bumps in order. -/
def applyBumps (bl : List (Json × Int)) (b : Board) : Board :=
  bl.foldl (fun acc pr => bump pr.1 pr.2 acc) b

/-- An entry of the `top20()` result: `{ name, count }`. -/
structure Entry where
  name : Json
  count : Int
deriving DecidableEq

/-- The map step of `top20()`: the board's entries, in insertion order. -/
def entriesOf (b : Board) : List Entry := b.map (fun pr => ⟨pr.1, pr.2⟩)

/-- Insert an entry into a descending-by-count list, after every entry with
a strictly greater count and before the first entry with a less-or-equal
count — the position a stable sort gives the element. -/
def insertDesc (x : Entry) : List Entry → List Entry
  | [] => [x]
  | y :: ys => if x.count < y.count then y :: insertDesc x ys else x :: y :: ys

/-- Stable descending sort by count, modelling
`.sort((a, b) => b.count - a.count)` (`Array.prototype.sort` is stable per
ES2019, so any stable descending-by-count sort computes the same list). -/
def sortDesc : List Entry → List Entry
  | [] => []
  | x :: xs => insertDesc x (sortDesc xs)

/-- `top20()` (src/server.js lines 85-90): map the entries, sort by count
descending, take the first 20. -/
def top20 (b : Board) : List Entry := (sortDesc (entriesOf b)).take 20

/-! ## `JSON.parse` model

A recursive-descent parser for the JSON fragment the server exchanges:
`null`, booleans, (integer) numbers, strings with the standard escapes,
arrays and objects.  Following the integer modelling of numbers, fraction
and exponent parts are not accepted (no claim involves them); otherwise a
parse failure models a `JSON.parse` throw. -/

/-- The `{` character (written via its code point). -/
def lbrace : Char := Char.ofNat 123

/-- The `}` character (written via its code point). -/
def rbrace : Char := Char.ofNat 125

/-- Skip JSON whitespace. -/
def skipWs : List Char → List Char
  | [] => []
  | c :: cs => if c = ' ' ∨ c = '\n' ∨ c = '\t' ∨ c = '\r' then skipWs cs else c :: cs

/-- Hex digit value. -/
def hexVal (c : Char) : Option Nat :=
  if '0' ≤ c ∧ c ≤ '9' then some (c.toNat - 48)
  else if 'a' ≤ c ∧ c ≤ 'f' then some (c.toNat - 87)
  else if 'A' ≤ c ∧ c ≤ 'F' then some (c.toNat - 70)
  else none

/-- Parse the body of a JSON string literal (after the opening quote),
accumulating characters until the closing quote. -/
def parseStrAux (acc : List Char) : List Char → Option (String × List Char)
  | [] => none
  | c :: cs =>
    if c = '"' then some (String.mk acc.reverse, cs)
    else if c = '\\' then
      match cs with
      | '"' :: rest => parseStrAux ('"' :: acc) rest
      | '\\' :: rest => parseStrAux ('\\' :: acc) rest
      | '/' :: rest => parseStrAux ('/' :: acc) rest
      | 'b' :: rest => parseStrAux (Char.ofNat 8 :: acc) rest
      | 'f' :: rest => parseStrAux (Char.ofNat 12 :: acc) rest
      | 'n' :: rest => parseStrAux ('\n' :: acc) rest
      | 'r' :: rest => parseStrAux ('\r' :: acc) rest
      | 't' :: rest => parseStrAux ('\t' :: acc) rest
      | 'u' :: h1 :: h2 :: h3 :: h4 :: rest =>
        match hexVal h1, hexVal h2, hexVal h3, hexVal h4 with
        | some a, some b, some c', some d =>
          parseStrAux (Char.ofNat (((a * 16 + b) * 16 + c') * 16 + d) :: acc) rest
        | _, _, _, _ => none
      | _ => none
    else if c.toNat < 32 then none
    else parseStrAux (c :: acc) cs

/-- Split a leading run of decimal digits from the input. -/
def takeDigits : List Char → (List Char × List Char)
  | [] => ([], [])
  | c :: cs =>
    if c.isDigit then
      let (ds, rest) := takeDigits cs
      (c :: ds, rest)
    else ([], c :: cs)

/-- Value of a digit run. -/
def digitsToNat (l : List Char) : Nat :=
  l.foldl (fun a c => a * 10 + (c.toNat - 48)) 0

mutual

/-- Parse one JSON value (fuelled; the fuel is an upper bound on nesting and
is always sufficient for the inputs considered). -/
def parseVal : Nat → List Char → Option (Json × List Char)
  | 0, _ => none
  | fuel + 1, cs =>
    match skipWs cs with
    | 'n' :: 'u' :: 'l' :: 'l' :: rest => some (.null, rest)
    | 't' :: 'r' :: 'u' :: 'e' :: rest => some (.bool true, rest)
    | 'f' :: 'a' :: 'l' :: 's' :: 'e' :: rest => some (.bool false, rest)
    | c :: rest =>
      if c = '"' then
        match parseStrAux [] rest with
        | some (s, r) => some (.str s, r)
        | none => none
      else if c = '[' then
        match skipWs rest with
        | ']' :: r => some (.arr [], r)
        | r => match parseElems fuel r with
               | some (xs, r') => some (.arr xs, r')
               | none => none
      else if c = lbrace then
        match skipWs rest with
        | d :: r => if d = rbrace then some (.obj [], r)
                    else match parseMembers fuel (d :: r) with
                         | some (kvs, r') => some (.obj kvs, r')
                         | none => none
        | [] => none
      else if c = '-' then
        match takeDigits rest with
        | ([], _) => none
        | (ds, r) => some (.num (-(digitsToNat ds : Int)), r)
      else if c.isDigit then
        match takeDigits (c :: rest) with
        | (ds, r) => some (.num (digitsToNat ds : Int), r)
      else none
    | [] => none

/-- Parse the elements of a nonempty array (position: before a value). -/
def parseElems : Nat → List Char → Option (List Json × List Char)
  | 0, _ => none
  | fuel + 1, cs =>
    match parseVal fuel cs with
    | some (v, r) =>
      match skipWs r with
      | ',' :: r2 =>
        match parseElems fuel r2 with
        | some (vs, r3) => some (v :: vs, r3)
        | none => none
      | ']' :: r2 => some ([v], r2)
      | _ => none
    | none => none

/-- Parse the members of a nonempty object (position: before a key). -/
def parseMembers : Nat → List Char → Option (List (String × Json) × List Char)
  | 0, _ => none
  | fuel + 1, cs =>
    match skipWs cs with
    | c :: rest =>
      if c = '"' then
        match parseStrAux [] rest with
        | some (k, r) =>
          match skipWs r with
          | ':' :: r2 =>
            match parseVal fuel r2 with
            | some (v, r3) =>
              match skipWs r3 with
              | ',' :: r4 =>
                match parseMembers fuel r4 with
                | some (kvs, r5) => some ((k, v) :: kvs, r5)
                | none => none
              | d :: r4 => if d = rbrace then some ([(k, v)], r4) else none
              | [] => none
            | none => none
          | _ => none
        | none => none
      else none
    | [] => none

end

/-- `JSON.parse` on a whole input: one value, then only whitespace. -/
def jsonParse (s : String) : Option Json :=
  match parseVal (s.length + 1) s.data with
  | some (j, rest) => if (skipWs rest).isEmpty then some j else none
  | none => none

/-! ## Byte-level helpers for the HMAC path -/

/-- UTF-8 encoding of one code point. -/
def utf8EncodeCharNat (c : Char) : List Nat :=
  let n := c.toNat
  if n < 128 then [n]
  else if n < 2048 then [192 + n / 64, 128 + n % 64]
  else if n < 65536 then [224 + n / 4096, 128 + (n / 64) % 64, 128 + n % 64]
  else [240 + n / 262144, 128 + (n / 4096) % 64, 128 + (n / 64) % 64, 128 + n % 64]

/-- UTF-8 bytes of a string (the secret "interpreted as raw text bytes" and
the raw request body). -/
def utf8Bytes (s : String) : List Nat := (s.data.map utf8EncodeCharNat).flatten

/-- Base64 alphabet value of a character. -/
def b64Val (c : Char) : Option Nat :=
  if 'A' ≤ c ∧ c ≤ 'Z' then some (c.toNat - 65)
  else if 'a' ≤ c ∧ c ≤ 'z' then some (c.toNat - 71)
  else if '0' ≤ c ∧ c ≤ '9' then some (c.toNat + 4)
  else if c = '+' then some 62
  else if c = '/' then some 63
  else none

/-- Decode a run of base64 sextets to bytes (4 sextets to 3 bytes; a final
group of 2 or 3 sextets yields 1 or 2 bytes; a lone trailing sextet is
dropped). -/
def b64Chunks : List Nat → List Nat
  | a :: b :: c :: d :: rest =>
    (a * 4 + b / 16) :: ((b % 16) * 16 + c / 4) :: ((c % 4) * 64 + d) :: b64Chunks rest
  | [a, b] => [a * 4 + b / 16]
  | [a, b, c] => [a * 4 + b / 16, (b % 16) * 16 + c / 4]
  | _ => []

/-- `Buffer.from(s, "base64")`: Node's forgiving decoder — characters
outside the alphabet (including `=` padding) are ignored, then sextets are
packed into bytes.  It never throws, so the `try/catch` around the second
HMAC computation never fires. -/
def base64Decode (s : String) : List Nat := b64Chunks (s.data.filterMap b64Val)

/-- ASCII lowercasing, modelling `String.prototype.toLowerCase()` on the hex
digests and signature headers involved. -/
def lowerStr (s : String) : String := String.mk (s.data.map Char.toLower)

/-! ## Webhook processors

The body-processing sections of the `POST /webhook` handler in
src/server.js: the Zettle (path A) product loop at lines 244-249 and the
PayPal (path B) item extraction at lines 176-189.  Each processor takes the
parsed body and the current leaderboard and returns the new leaderboard
together with a flag recording whether the processing code threw (a throw
happens after the HTTP acknowledgment and produces no response change, but
aborts the remaining bumps). -/

/-- Per-item quantity, `Number(p?.quantity ?? 1) || 1` (src/server.js line
247 and line 181): a missing or `null` field gives the literal `1`; `NaN`
and `0` coerce to `1`; every other numeric value — including negative ones —
is kept. -/
def itemQty (p : Json) : Int :=
  match jsGet p "quantity" with
  | none => 1
  | some .null => 1
  | some q =>
    match jsToNumber q with
    | none => 1
    | some n => if n = 0 then 1 else n

/-- Per-item name for path A (src/server.js line 246):
`p?.name || p?.productName || p?.variantName || "Ukjent"`. -/
def zettleItemName (p : Json) : Json :=
  firstTruthy [jsGet p "name", jsGet p "productName", jsGet p "variantName"] (.str "Ukjent")

/-- Per-item name for path B (src/server.js line 180):
`item?.name || "Ukjent"`. -/
def ppItemName (p : Json) : Json := firstTruthy [jsGet p "name"] (.str "Ukjent")

/-- The `(name, quantity)` pair path B builds for one item. -/
def ppItem (p : Json) : Json × Int := (ppItemName p, itemQty p)

/-- The values `for (const p of products)` iterates over, if `products` is
iterable: an array yields its elements, a string its characters (as 1-char
strings); any other truthy value is not iterable and the loop header throws
(`none`). -/
def jsIterate : Json → Option (List Json)
  | .arr l => some l
  | .str s => some (s.data.map (fun c => Json.str (String.mk [c])))
  | _ => none

/-- The bumps the path-A product loop performs, one per product item. -/
def zettleBumps (items : List Json) : List (Json × Int) :=
  items.map (fun p => (zettleItemName p, itemQty p))

/-- Path-A body processing (src/server.js lines 244-249): read
`body?.payload?.products || []` and bump every item.  There is no second
JSON decode of a string-valued `payload` field in src/server.js (the earlier
variant src/unnamed/part_000 lines 164-177 does attempt one); a string
payload simply yields no products.  The flag is `true` when the loop header
throws (a truthy, non-iterable `products` value). -/
def processZettleBody (body : Json) (b : Board) : Board × Bool :=
  let productsVal : Json :=
    match jsGet2 body "payload" "products" with
    | some j => if jsTruthy j then j else .arr []
    | none => .arr []
  match jsIterate productsVal with
  | none => (b, true)
  | some items => (applyBumps (zettleBumps items) b, false)

/-- The `flatMap` callback result for one purchase unit,
`unit?.items?.map(item => ...)` (src/server.js lines 179-182): `.ok none`
models the callback returning `undefined` (no `items`, or a `null` one —
`flatMap` then inserts that `undefined` itself as an element); `.ok (some l)`
an array result (which `flatMap` flattens); `.error` a thrown `TypeError`
(`items` present but not an array, so `.map` is not a function). -/
def ppUnitItems (u : Json) : Except Unit (Option (List (Json × Int)))  :=
  match jsGet u "items" with
  | none => .ok none
  | some .null => .ok none
  | some (.arr its) => .ok (some (its.map ppItem))
  | some _ => .error ()

/-- Run the `flatMap` over the purchase units, flattening array results and
keeping an `undefined` element (`none`) for each unit whose callback
returned `undefined`. -/
def ppUnits : List Json → Except Unit (List (Option (Json × Int)))
  | [] => .ok []
  | u :: us =>
    match ppUnitItems u with
    | .error e => .error e
    | .ok r =>
      match ppUnits us with
      | .error e => .error e
      | .ok rest =>
        match r with
        | none => .ok (none :: rest)
        | some l => .ok (l.map some ++ rest)

/-- `body?.resource?.purchase_units?.flatMap(...)` (src/server.js lines
178-183): `.ok none` when `purchase_units` is absent or `null` (`products`
is then `undefined`); `.error` when it is some other non-array (`.flatMap`
is not a function and throws). -/
def ppExtract (body : Json) : Except Unit (Option (List (Option (Json × Int)))) :=
  match jsGet2 body "resource" "purchase_units" with
  | none => .ok none
  | some .null => .ok none
  | some (.arr units) =>
    match ppUnits units with
    | .error e => .error e
    | .ok l => .ok (some l)
  | some _ => .error ()

/-- The synthetic key `body?.resource?.custom_id || "PayPal salg"`
(src/server.js line 188). -/
def ppSyntheticKey (body : Json) : Json :=
  firstTruthy [jsGet2 body "resource" "custom_id"] (.str "PayPal salg")

/-- `for (const p of products) bump(p.name, p.quantity)` (src/server.js line
186) over a list that may contain `undefined` elements: bumps are applied
until the first `undefined`, where `p.name` throws a `TypeError` (flag
`true`), keeping the bumps already applied. -/
def applyLoop : List (Option (Json × Int)) → Board → Board × Bool
  | [], b => (b, false)
  | none :: _, b => (b, true)
  | some (n, q) :: rest, b => applyLoop rest (bump n q b)

/-- Path-B body processing (src/server.js lines 176-189): flatten the
purchase units' items and bump each, or bump one synthetic entry when
`products` is `undefined` or empty (`products?.length` falsy). -/
def processPaypalBody (body : Json) (b : Board) : Board × Bool :=
  match ppExtract body with
  | .error _ => (b, true)
  | .ok none => (bump (ppSyntheticKey body) 1 b, false)
  | .ok (some l) =>
    if l.isEmpty then (bump (ppSyntheticKey body) 1 b, false)
    else applyLoop l b

/-- The `(name, quantity)` pairs one purchase unit contributes (empty when
it has no items array). -/
def unitPairs (u : Json) : List (Json × Int) :=
  match jsGet u "items" with
  | some (.arr its) => its.map ppItem
  | _ => []

/-- Whether one purchase unit carries an array `items` field. -/
def unitWF (u : Json) : Bool :=
  match jsGet u "items" with
  | some (.arr _) => true
  | _ => false

/-- Characterization of the pairs path B flattens out of a well-formed body,
following the spec's words: "flatten `resource.purchase_units[*].items[*]`
into (name, quantity) pairs". -/
def ppItemsSpec (body : Json) : List (Json × Int) :=
  match jsGet2 body "resource" "purchase_units" with
  | some (.arr units) => (units.map unitPairs).flatten
  | _ => []

/-- Well-formedness of a path-B body under which the item extraction cannot
throw: `purchase_units` absent or `null`, or an array each of whose units
carries an array `items` field. -/
def ppWellFormed (body : Json) : Bool :=
  match jsGet2 body "resource" "purchase_units" with
  | none => true
  | some .null => true
  | some (.arr units) => units.all unitWF
  | some _ => false

/-! ## Token getters (src/server.js lines 10-70)

Each getter is a pure function of the credentials it reads from the
environment, the module-level cache, the current time, and the outcome the
network exchange would have (`fetchOutcome`): `.error` models a non-2xx
token response, `.ok (tok, expiresIn)` a successful one.  The result records
whether the network call was made at all. -/

/-- Errors a token getter can throw. -/
inductive TokenError where
  | config : TokenError
  | upstream : TokenError
deriving DecidableEq

/-- The module-level cache pair (`cachedToken`/`tokenExpiresAt`, resp.
`cachedPayPalToken`/`paypalTokenExpiresAt`). -/
structure TokenCache where
  cached : Option String
  expiresAt : Int
deriving DecidableEq

/-- Result of one call to a token getter. -/
structure TokenCallResult where
  outcome : Except TokenError String
  cache : TokenCache
  networkCalled : Bool

/-- `getAccessToken()` (src/server.js lines 15-37, Zettle provider): return
the cached token when fresh (60 s margin); otherwise perform the exchange.
The credentials `ZETTLE_CLIENT_ID` / `ZETTLE_API_KEY` are read into the
request body but never checked — a missing credential is serialized as the
string `"undefined"` and the network call proceeds.  (The earlier variant
src/unnamed/part_000 lines 11-16 does check them; src/server.js, the live
file, does not.) -/
def getAccessToken (_clientId _apiKey : Option String) (st : TokenCache)
    (now : Int) (fetchOutcome : Except Unit (String × Int)) : TokenCallResult :=
  if optStrTruthy st.cached ∧ now < st.expiresAt - 60000 then
    { outcome := .ok (st.cached.getD ""), cache := st, networkCalled := false }
  else
    match fetchOutcome with
    | .error _ => { outcome := .error .upstream, cache := st, networkCalled := true }
    | .ok (tok, expiresIn) =>
      { outcome := .ok tok
        cache := { cached := some tok, expiresAt := now + expiresIn * 1000 }
        networkCalled := true }

/-- `getPayPalAccessToken()` (src/server.js lines 39-70): return the cached
token when fresh; otherwise check `PAYPAL_CLIENT_ID` / `PAYPAL_CLIENT_SECRET`
and throw a configuration error before any network call when either is
missing or empty; otherwise perform the exchange. -/
def getPayPalAccessToken (clientId clientSecret : Option String) (st : TokenCache)
    (now : Int) (fetchOutcome : Except Unit (String × Int)) : TokenCallResult :=
  if optStrTruthy st.cached ∧ now < st.expiresAt - 60000 then
    { outcome := .ok (st.cached.getD ""), cache := st, networkCalled := false }
  else if ¬ optStrTruthy clientId ∨ ¬ optStrTruthy clientSecret then
    { outcome := .error .config, cache := st, networkCalled := false }
  else
    match fetchOutcome with
    | .error _ => { outcome := .error .upstream, cache := st, networkCalled := true }
    | .ok (tok, expiresIn) =>
      { outcome := .ok tok
        cache := { cached := some tok, expiresAt := now + expiresIn * 1000 }
        networkCalled := true }

/-! ## The `POST /webhook` handler (src/server.js lines 112-262)

Inputs are the environment, the request (headers and raw body), and oracles
for the two awaited PayPal calls.  The handler's path-A HMAC block at
src/server.js lines 203-232 is not valid JavaScript (the `try` opened at
line 205 has no `catch`/`finally`, `let expectedB64` is declared twice, and
the comparison references an undeclared `expectedText`); the handler below
therefore models the path-A verification from the repository's valid
variant of the same block, src/unnamed/part_000 lines 95-125, which is what
the spec describes.  The literal src/server.js block is modelled separately
as `serverJsPathA`.  Everything else follows src/server.js. -/

/-- Configuration read from the environment by the handler. -/
structure Env where
  zettleSigningKey : Option String
  paypalWebhookId : Option String
deriving DecidableEq

/-- The inbound request: the Zettle signature header, the five PayPal
headers, and the raw body (a byte buffer, modelled as its UTF-8 string). -/
structure Req where
  sigHeader : Option String
  ppTransmissionId : Option String
  ppTransmissionTime : Option String
  ppCertUrl : Option String
  ppAuthAlgo : Option String
  ppTransmissionSig : Option String
  rawBody : String
deriving DecidableEq

/-- Outcome of the awaited `fetch` to PayPal's verify-webhook-signature
endpoint: a thrown transport error, a non-2xx response, or a 2xx response
whose JSON body parsed to `j` (`none` models `verifyRes.json()` throwing). -/
inductive VerifyFetch where
  | throwErr : VerifyFetch
  | notOk : VerifyFetch
  | okJson : Option Json → VerifyFetch
deriving DecidableEq

/-- Oracles for the two awaited calls on path B. -/
structure PPOracle where
  token : Except Unit String
  verify : VerifyFetch

/-- Which verification path the handler took. -/
inductive PathTag where
  | pathB : PathTag
  | pathA : PathTag
deriving DecidableEq

/-- Observable outcome of one handler run: the HTTP status sent, the
leaderboard afterwards, the path taken, how many HMAC digests were computed,
and whether processing threw after the acknowledgment. -/
structure HandlerOut where
  status : Nat
  board : Board
  pathTag : PathTag
  hmacUses : Nat
  postError : Bool
deriving DecidableEq

/-- `hasPayPalHeaders` (src/server.js lines 124-129): the conjunction of the
truthiness of the five PayPal headers. -/
def hasPayPalHeaders (req : Req) : Bool :=
  optStrTruthy req.ppTransmissionId && optStrTruthy req.ppTransmissionTime &&
  optStrTruthy req.ppCertUrl && optStrTruthy req.ppAuthAlgo &&
  optStrTruthy req.ppTransmissionSig

/-- The dispatch condition of line 131: `hasPayPalHeaders && paypalWebhookId`. -/
def routesToPathB (env : Env) (req : Req) : Bool :=
  hasPayPalHeaders req && optStrTruthy env.paypalWebhookId

/-- Path-A signature verification (modelled from src/unnamed/part_000 lines
95-115, the valid form of the broken src/server.js lines 203-232): HMAC over
the raw body with the secret as text bytes, and again with the secret
base64-decoded; accept when the lower-cased header equals either lower-cased
hex digest (the second compared only when its digest string is truthy). -/
def pathAVerify (hmacHex : List Nat → List Nat → String) (signingKey : String)
    (sigTrimmed : String) (rawBody : String) : Bool :=
  let expectedHexTextKey := hmacHex (utf8Bytes signingKey) (utf8Bytes rawBody)
  let expectedHexB64Key := hmacHex (base64Decode signingKey) (utf8Bytes rawBody)
  let recvLower := lowerStr sigTrimmed
  recvLower == lowerStr expectedHexTextKey ||
    (!expectedHexB64Key.isEmpty && recvLower == lowerStr expectedHexB64Key)

/-- The path-A part of the handler: guard (src/server.js line 201), HMAC
check, unconditional `200` acknowledgment, parse, product loop. -/
def pathAResult (hmacHex : List Nat → List Nat → String) (env : Env) (req : Req)
    (b : Board) : HandlerOut :=
  if ¬ optStrTruthy env.zettleSigningKey ∨ (jsTrim (req.sigHeader.getD "")).isEmpty then
    { status := 401, board := b, pathTag := .pathA, hmacUses := 0, postError := false }
  else if ¬ pathAVerify hmacHex (env.zettleSigningKey.getD "")
      (jsTrim (req.sigHeader.getD "")) req.rawBody then
    { status := 401, board := b, pathTag := .pathA, hmacUses := 2, postError := false }
  else
    match jsonParse req.rawBody with
    | none =>
      { status := 200, board := b, pathTag := .pathA, hmacUses := 2, postError := false }
    | some body =>
      { status := 200, board := (processZettleBody body b).1, pathTag := .pathA,
        hmacUses := 2, postError := (processZettleBody body b).2 }

/-- `verifyJson.verification_status === "SUCCESS"` (src/server.js line 167;
strict equality against the fixed success literal). -/
def verifySuccess (vj : Json) : Bool :=
  match jsGet vj "verification_status" with
  | some (.str s) => s == "SUCCESS"
  | _ => false

/-- The path-B part of the handler (src/server.js lines 131-198): parse the
body (`400` on failure), obtain a token and call the remote verification
(`500` on a throw), `401` unless the response is 2xx with
`verification_status === "SUCCESS"`, then the `200` acknowledgment and the
item extraction. -/
def pathBResult (req : Req) (orc : PPOracle) (b : Board) : HandlerOut :=
  match jsonParse req.rawBody with
  | none => { status := 400, board := b, pathTag := .pathB, hmacUses := 0, postError := false }
  | some body =>
    match orc.token with
    | .error _ =>
      { status := 500, board := b, pathTag := .pathB, hmacUses := 0, postError := false }
    | .ok _ =>
      match orc.verify with
      | .throwErr =>
        { status := 500, board := b, pathTag := .pathB, hmacUses := 0, postError := false }
      | .notOk =>
        { status := 401, board := b, pathTag := .pathB, hmacUses := 0, postError := false }
      | .okJson none =>
        { status := 500, board := b, pathTag := .pathB, hmacUses := 0, postError := false }
      | .okJson (some vj) =>
        if verifySuccess vj then
          { status := 200, board := (processPaypalBody body b).1, pathTag := .pathB,
            hmacUses := 0, postError := (processPaypalBody body b).2 }
        else
          { status := 401, board := b, pathTag := .pathB, hmacUses := 0, postError := false }

/-- The whole `POST /webhook` handler. -/
def webhookHandler (hmacHex : List Nat → List Nat → String) (env : Env) (req : Req)
    (orc : PPOracle) (b : Board) : HandlerOut :=
  if routesToPathB env req then pathBResult req orc b
  else pathAResult hmacHex env req b

/-- Outcome of the literal src/server.js path-A block. -/
inductive PathAOutcome where
  | status : Nat → PathAOutcome
  | crash : PathAOutcome
deriving DecidableEq

/-- The src/server.js path-A block (lines 201-232) taken literally, minimally
repaired so that it parses (as written it is rejected by the JavaScript
parser: the `try` opened at line 205 is never closed by a `catch` or
`finally`, and `let expectedB64` is declared twice).  Past the guard of line
201 it computes `expectedB64` — both computations use
`Buffer.from(signingKey, "base64")`, despite the line-203 comment "Prøv
nøkkel som tekst" — and then evaluates `expectedText.toLowerCase()` at line
223, where `expectedText` is not declared anywhere in the file: a
`ReferenceError`, modelled as `.crash`.  No request is ever accepted. -/
def serverJsPathA (hmacHex : List Nat → List Nat → String)
    (signingKey sigHeader : Option String) (rawBody : String) : PathAOutcome :=
  let sig := jsTrim (sigHeader.getD "")
  if ¬ optStrTruthy signingKey ∨ sig.isEmpty then .status 401
  else
    let _expectedB64 := hmacHex (base64Decode (signingKey.getD "")) (utf8Bytes rawBody)
    .crash

/-! ## Sequences of webhook-processing operations -/

/-- One verified-body processing operation. -/
inductive WebhookOp where
  | zettle : Json → WebhookOp
  | paypal : Json → WebhookOp
deriving DecidableEq

/-- The leaderboard after one processing operation (partial bumps are kept
when the loop throws midway). -/
def applyOp (b : Board) : WebhookOp → Board
  | .zettle body => (processZettleBody body b).1
  | .paypal body => (processPaypalBody body b).1

/-- The leaderboard after a sequence of processing operations. -/
def applyOps (ops : List WebhookOp) (b : Board) : Board := ops.foldl applyOp b

/-! ## Lemmas: stable descending sort -/

theorem mem_insertDesc {a x : Entry} : ∀ {l : List Entry}, a ∈ insertDesc x l ↔ a = x ∨ a ∈ l
  | [] => by simp [insertDesc]
  | y :: ys => by
    simp only [insertDesc]
    split
    · simp only [List.mem_cons, mem_insertDesc (l := ys)]
      tauto
    · simp only [List.mem_cons]

theorem pairwise_insertDesc {x : Entry} :
    ∀ {l : List Entry}, List.Pairwise (fun p q : Entry => q.count ≤ p.count) l →
      List.Pairwise (fun p q : Entry => q.count ≤ p.count) (insertDesc x l)
  | [], _ => by simp [insertDesc]
  | y :: ys, h => by
    rcases List.pairwise_cons.mp h with ⟨h1, h2⟩
    simp only [insertDesc]
    split
    · rename_i hlt
      refine List.pairwise_cons.mpr ⟨?_, pairwise_insertDesc h2⟩
      intro z hz
      rcases mem_insertDesc.mp hz with rfl | hz'
      · exact le_of_lt hlt
      · exact h1 z hz'
    · rename_i hge
      refine List.pairwise_cons.mpr ⟨?_, h⟩
      intro z hz
      rcases List.mem_cons.mp hz with rfl | hz'
      · omega
      · have := h1 z hz'
        omega

theorem pairwise_sortDesc :
    ∀ l : List Entry, List.Pairwise (fun p q : Entry => q.count ≤ p.count) (sortDesc l)
  | [] => List.Pairwise.nil
  | _ :: xs => pairwise_insertDesc (pairwise_sortDesc xs)

theorem filter_insertDesc (x : Entry) (c : Int) :
    ∀ l : List Entry,
      (insertDesc x l).filter (fun e => e.count == c) =
        if x.count == c then x :: l.filter (fun e => e.count == c)
        else l.filter (fun e => e.count == c)
  | [] => by
    simp only [insertDesc, List.filter_cons, List.filter_nil]
  | y :: ys => by
    simp only [insertDesc]
    split
    · rename_i hlt
      rw [List.filter_cons, filter_insertDesc x c ys]
      by_cases hx : x.count = c
      · have hy : (y.count == c) = false := by
          simp only [beq_eq_false_iff_ne, ne_eq]
          omega
        simp [hy, hx, List.filter_cons]
      · have hx' : (x.count == c) = false := by simpa using hx
        simp [hx', List.filter_cons]
    · rw [List.filter_cons]

theorem filter_sortDesc (c : Int) :
    ∀ l : List Entry,
      (sortDesc l).filter (fun e => e.count == c) = l.filter (fun e => e.count == c)
  | [] => rfl
  | x :: xs => by
    simp only [sortDesc, filter_insertDesc x c (sortDesc xs), filter_sortDesc c xs,
      List.filter_cons]

/-! ## Lemmas: the leaderboard store -/

theorem getCount_bump_self (n : Json) (q : Int) :
    ∀ b : Board, getCount (bump n q b) n = some (countD b n + q)
  | [] => by
    simp [bump, getCount, countD, Json.beq_refl n]
  | (m, c) :: rest => by
    by_cases h : Json.beq m n = true
    · simp [bump, h, getCount, countD]
    · have h' : Json.beq m n = false := by
        cases hb : Json.beq m n
        · rfl
        · exact absurd hb h
      simp [bump, h', getCount, countD, getCount_bump_self n q rest]

theorem getCount_bump_other (n m : Json) (q : Int) (hnm : n ≠ m) :
    ∀ b : Board, getCount (bump n q b) m = getCount b m
  | [] => by
    have h : Json.beq n m = false := by
      cases hb : Json.beq n m
      · rfl
      · exact absurd (Json.eq_of_beq hb) hnm
    simp [bump, getCount, h]
  | (k, c) :: rest => by
    by_cases h : Json.beq k n = true
    · have hk : k = n := Json.eq_of_beq h
      subst hk
      have h2 : Json.beq k m = false := by
        cases hb : Json.beq k m
        · rfl
        · exact absurd (Json.eq_of_beq hb) hnm
      simp [bump, h, getCount, h2]
    · have h' : Json.beq k n = false := by
        cases hb : Json.beq k n
        · rfl
        · exact absurd hb h
      simp [bump, h', getCount, getCount_bump_other n m q hnm rest]

theorem countD_bump_self (n : Json) (q : Int) (b : Board) :
    countD (bump n q b) n = countD b n + q := by
  simp [countD, getCount_bump_self n q b]

theorem countD_bump_other (n m : Json) (q : Int) (hnm : n ≠ m) (b : Board) :
    countD (bump n q b) m = countD b m := by
  simp [countD, getCount_bump_other n m q hnm b]

theorem countD_le_bump (n m : Json) (q : Int) (hq : 0 ≤ q) (b : Board) :
    countD b m ≤ countD (bump n q b) m := by
  by_cases hnm : n = m
  · subst hnm
    rw [countD_bump_self]
    omega
  · rw [countD_bump_other n m q hnm]

theorem hasKey_bump (n m : Json) (q : Int) (b : Board) (h : hasKey b m = true) :
    hasKey (bump n q b) m = true := by
  by_cases hnm : n = m
  · subst hnm
    simp [hasKey, getCount_bump_self n q b]
  · simpa [hasKey, getCount_bump_other n m q hnm b] using h

theorem countD_le_applyBumps (m : Json) :
    ∀ (bl : List (Json × Int)) (b : Board), (∀ p ∈ bl, 0 ≤ p.2) →
      countD b m ≤ countD (applyBumps bl b) m
  | [], b, _ => le_refl _
  | (n, q) :: rest, b, h => by
    have h1 : 0 ≤ q := h (n, q) (List.mem_cons_self _ _)
    have h2 : ∀ p ∈ rest, 0 ≤ p.2 := fun p hp => h p (List.mem_cons_of_mem _ hp)
    calc countD b m ≤ countD (bump n q b) m := countD_le_bump n m q h1 b
      _ ≤ countD (applyBumps rest (bump n q b)) m := countD_le_applyBumps m rest _ h2

theorem hasKey_applyBumps (m : Json) :
    ∀ (bl : List (Json × Int)) (b : Board), hasKey b m = true →
      hasKey (applyBumps bl b) m = true
  | [], _, h => h
  | (n, q) :: rest, b, h =>
    hasKey_applyBumps m rest (bump n q b) (hasKey_bump n m q b h)

/-! ## Lemmas: processors factor through bump lists -/

/-- The pairs the path-B loop applies before hitting the first `undefined`
element. -/
def leadingSomes : List (Option (Json × Int)) → List (Json × Int)
  | [] => []
  | none :: _ => []
  | some p :: rest => p :: leadingSomes rest

theorem applyLoop_fst :
    ∀ (l : List (Option (Json × Int))) (b : Board),
      (applyLoop l b).1 = applyBumps (leadingSomes l) b
  | [], _ => rfl
  | none :: _, _ => rfl
  | some (n, q) :: rest, b => by
    simp [applyLoop, leadingSomes, applyBumps, applyLoop_fst rest (bump n q b)]

theorem applyLoop_all_some :
    ∀ (bl : List (Json × Int)) (b : Board),
      applyLoop (bl.map some) b = (applyBumps bl b, false)
  | [], _ => rfl
  | (n, q) :: rest, b => by
    simp [applyLoop, applyBumps, applyLoop_all_some rest (bump n q b)]

theorem applyOp_factors (op : WebhookOp) (b : Board) :
    ∃ bl : List (Json × Int), applyOp b op = applyBumps bl b := by
  cases op with
  | zettle body =>
    simp only [applyOp, processZettleBody]
    cases jsIterate (match jsGet2 body "payload" "products" with
      | some j => if jsTruthy j then j else .arr []
      | none => .arr []) with
    | none => exact ⟨[], rfl⟩
    | some items => exact ⟨zettleBumps items, rfl⟩
  | paypal body =>
    simp only [applyOp, processPaypalBody]
    cases ppExtract body with
    | error e => exact ⟨[], rfl⟩
    | ok r =>
      cases r with
      | none => exact ⟨[(ppSyntheticKey body, 1)], rfl⟩
      | some l =>
        by_cases hl : l.isEmpty
        · simp only [hl, if_true]
          exact ⟨[(ppSyntheticKey body, 1)], rfl⟩
        · simp only [hl, if_false]
          exact ⟨leadingSomes l, applyLoop_fst l b⟩

/-! ## Lemmas: well-formed path-B extraction -/

theorem ppUnits_wf :
    ∀ units : List Json, units.all unitWF = true →
      ppUnits units = .ok (((units.map unitPairs).flatten).map some)
  | [], _ => rfl
  | u :: us, h => by
    simp only [List.all_cons, Bool.and_eq_true] at h
    obtain ⟨h1, h2⟩ := h
    unfold unitWF at h1
    cases hg : jsGet u "items" with
    | none =>
      rw [hg] at h1
      cases h1
    | some j =>
      cases j with
      | arr its =>
        simp only [ppUnits, ppUnitItems, hg, ppUnits_wf us h2, unitPairs, List.map_cons,
          List.flatten_cons, List.map_append]
      | null => rw [hg] at h1; cases h1
      | bool c => rw [hg] at h1; cases h1
      | num c => rw [hg] at h1; cases h1
      | str c => rw [hg] at h1; cases h1
      | obj c => rw [hg] at h1; cases h1

theorem processPaypal_wf (body : Json) (b : Board) (h : ppWellFormed body = true) :
    processPaypalBody body b =
      (if ppItemsSpec body = [] then bump (ppSyntheticKey body) 1 b
       else applyBumps (ppItemsSpec body) b, false) := by
  cases hg : jsGet2 body "resource" "purchase_units" with
  | none => simp [processPaypalBody, ppExtract, ppItemsSpec, hg]
  | some j =>
    cases j with
    | null => simp [processPaypalBody, ppExtract, ppItemsSpec, hg]
    | arr units =>
      have h' : units.all unitWF = true := by
        unfold ppWellFormed at h
        rw [hg] at h
        exact h
      have hex : ppExtract body = .ok (some (((units.map unitPairs).flatten).map some)) := by
        have h2 := ppUnits_wf units h'
        calc ppExtract body
            = (match ppUnits units with
              | Except.error e => Except.error e
              | Except.ok l => Except.ok (some l)) := by
              unfold ppExtract
              rw [hg]
          _ = .ok (some (((units.map unitPairs).flatten).map some)) := by rw [h2]
      have hx : processPaypalBody body b =
          (if (((units.map unitPairs).flatten).map some).isEmpty
            then (bump (ppSyntheticKey body) 1 b, false)
            else applyLoop (((units.map unitPairs).flatten).map some) b) := by
        unfold processPaypalBody
        rw [hex]
      have hspec : ppItemsSpec body = (units.map unitPairs).flatten := by
        unfold ppItemsSpec
        rw [hg]
      rw [hx, hspec]
      by_cases hfl : (units.map unitPairs).flatten = []
      · rw [hfl]
        simp
      · have hi : (((units.map unitPairs).flatten).map some).isEmpty = false := by
          cases hll : (units.map unitPairs).flatten with
          | nil => exact absurd hll hfl
          | cons a l => rfl
        rw [hi, if_neg hfl]
        simp only [Bool.false_eq_true, if_false]
        exact applyLoop_all_some _ b
    | bool c =>
      unfold ppWellFormed at h
      rw [hg] at h
      simp at h
    | num c =>
      unfold ppWellFormed at h
      rw [hg] at h
      simp at h
    | str c =>
      unfold ppWellFormed at h
      rw [hg] at h
      simp at h
    | obj c =>
      unfold ppWellFormed at h
      rw [hg] at h
      simp at h

/-! ## Lemmas: handler paths -/

theorem pathBResult_tag (req : Req) (orc : PPOracle) (b : Board) :
    (pathBResult req orc b).pathTag = PathTag.pathB := by
  unfold pathBResult
  repeat' split
  all_goals rfl

theorem pathAResult_tag (hmacHex : List Nat → List Nat → String) (env : Env) (req : Req)
    (b : Board) : (pathAResult hmacHex env req b).pathTag = PathTag.pathA := by
  unfold pathAResult
  repeat' split
  all_goals rfl

theorem pathBResult_status (req : Req) (orc : PPOracle) (b : Board) :
    (pathBResult req orc b).status = 200 ∨ (pathBResult req orc b).status = 400 ∨
      (pathBResult req orc b).status = 401 ∨ (pathBResult req orc b).status = 500 := by
  unfold pathBResult
  repeat' split
  all_goals simp

theorem pathAResult_status (hmacHex : List Nat → List Nat → String) (env : Env) (req : Req)
    (b : Board) :
    (pathAResult hmacHex env req b).status = 200 ∨ (pathAResult hmacHex env req b).status = 401 := by
  unfold pathAResult
  repeat' split
  all_goals simp

theorem firstTruthy_all_false :
    ∀ (l : List (Option Json)) (d : Json), (∀ x ∈ l, optTruthy x = false) → firstTruthy l d = d
  | [], _, _ => rfl
  | x :: xs, d, h => by
    have hx := h x (List.mem_cons_self _ _)
    have hrest := fun y hy => h y (List.mem_cons_of_mem x hy)
    cases x with
    | none => exact firstTruthy_all_false xs d hrest
    | some j =>
      have hj : jsTruthy j = false := by simpa [optTruthy] using hx
      simp only [firstTruthy, hj, Bool.false_eq_true, if_false]
      exact firstTruthy_all_false xs d hrest

theorem hasKey_applyOp (op : WebhookOp) (b : Board) (m : Json) (h : hasKey b m = true) :
    hasKey (applyOp b op) m = true := by
  obtain ⟨bl, hb⟩ := applyOp_factors op b
  rw [hb]
  exact hasKey_applyBumps m bl b h

theorem hasKey_applyOps (m : Json) :
    ∀ (ops : List WebhookOp) (b : Board), hasKey b m = true →
      hasKey (applyOps ops b) m = true
  | [], _, h => h
  | op :: rest, b, h => hasKey_applyOps m rest (applyOp b op) (hasKey_applyOp op b m h)

/-- The verification-success condition of path B as a function of the
oracles: the token call succeeded and the verify call returned 2xx JSON with
`verification_status === "SUCCESS"`. -/
def pathBVerifiedB (orc : PPOracle) : Bool :=
  match orc.token, orc.verify with
  | .ok _, .okJson (some vj) => verifySuccess vj
  | _, _ => false

/-- The acceptance condition of path A: secret configured, signature header
non-empty after trimming, and the HMAC comparison succeeds. -/
def pathAAccepts (hmacHex : List Nat → List Nat → String) (env : Env) (req : Req) : Bool :=
  optStrTruthy env.zettleSigningKey && !(jsTrim (req.sigHeader.getD "")).isEmpty &&
    pathAVerify hmacHex (env.zettleSigningKey.getD "") (jsTrim (req.sigHeader.getD ""))
      req.rawBody

theorem pathBResult_status_200_iff (req : Req) (orc : PPOracle) (b : Board) :
    (pathBResult req orc b).status = 200 ↔
      ((jsonParse req.rawBody).isSome = true ∧ pathBVerifiedB orc = true) := by
  unfold pathBResult pathBVerifiedB
  cases hp : jsonParse req.rawBody with
  | none => simp
  | some body =>
    cases ht : orc.token with
    | error e => simp
    | ok t =>
      cases hv : orc.verify with
      | throwErr => simp
      | notOk => simp
      | okJson j =>
        cases j with
        | none => simp
        | some vj =>
          by_cases hs : verifySuccess vj = true
          · simp [hs]
          · simp [hs]

theorem pathBResult_status_400_iff (req : Req) (orc : PPOracle) (b : Board) :
    (pathBResult req orc b).status = 400 ↔ jsonParse req.rawBody = none := by
  unfold pathBResult
  cases hp : jsonParse req.rawBody with
  | none => simp
  | some body =>
    cases ht : orc.token with
    | error e => simp
    | ok t =>
      cases hv : orc.verify with
      | throwErr => simp
      | notOk => simp
      | okJson j =>
        cases j with
        | none => simp
        | some vj =>
          by_cases hs : verifySuccess vj = true
          · simp [hs]
          · simp [hs]

theorem pathAResult_status_200_iff (hmacHex : List Nat → List Nat → String) (env : Env)
    (req : Req) (b : Board) :
    (pathAResult hmacHex env req b).status = 200 ↔ pathAAccepts hmacHex env req = true := by
  unfold pathAResult pathAAccepts
  by_cases h1 : optStrTruthy env.zettleSigningKey = true
  · by_cases h2 : (jsTrim (req.sigHeader.getD "")).isEmpty = true
    · simp [h1, h2]
    · by_cases h3 : pathAVerify hmacHex (env.zettleSigningKey.getD "")
          (jsTrim (req.sigHeader.getD "")) req.rawBody = true
      · cases hp : jsonParse req.rawBody with
        | none => simp [h1, h2, h3]
        | some body => simp [h1, h2, h3]
      · simp [h1, h2, h3]
  · simp [h1]

/-! ## Concrete inputs used by witnesses and counterexamples -/

/-- A stand-in for the opaque HMAC-SHA256 hex-digest primitive in closed
evaluations. -/
def stubHmac : List Nat → List Nat → String := fun _ _ => "aa"

/-- A path-B oracle whose verify call returns non-2xx. -/
def stubOracle : PPOracle := { token := .ok "t", verify := .notOk }

/-- An environment with nothing configured. -/
def envEmpty : Env := { zettleSigningKey := none, paypalWebhookId := none }

/-- A request with no headers and an empty body. -/
def reqEmpty : Req :=
  { sigHeader := none, ppTransmissionId := none, ppTransmissionTime := none,
    ppCertUrl := none, ppAuthAlgo := none, ppTransmissionSig := none, rawBody := "" }

/-- A request carrying all five provider-B headers (non-empty). -/
def reqFivePP : Req :=
  { sigHeader := none, ppTransmissionId := some "x", ppTransmissionTime := some "x",
    ppCertUrl := some "x", ppAuthAlgo := some "x", ppTransmissionSig := some "x",
    rawBody := "hei" }

/-! ## Claims -/

/-- C1: the claim states that a path-A webhook request (secret configured,
signature header present) is accepted exactly when the lower-cased header
equals the lower-cased hex HMAC-SHA256 of the raw body under the secret as
text bytes or under the secret base64-decoded, and in particular that a
correctly text-signed body is accepted.  The src/server.js code (lines
201-232) cannot do this: past the guard it always dereferences the
undeclared identifier `expectedText` (and both digests it does compute use
the base64-decoded key; as written the block is not even syntactically valid
JavaScript).  This theorem evaluates the literal block: every request with a
configured secret and a non-empty signature — however it was signed —
crashes instead of being accepted or rejected. -/
theorem c1_serverJs_pathA_always_crashes
    (hmacHex : List Nat → List Nat → String) (key sigHeader : Option String) (raw : String)
    (hkey : optStrTruthy key = true)
    (hsig : (jsTrim (sigHeader.getD "")).isEmpty = false) :
    serverJsPathA hmacHex key sigHeader raw = PathAOutcome.crash := by
  unfold serverJsPathA
  simp [hkey, hsig]

/-- Witness for C1 at a concrete correctly-guarded request. -/
theorem c1_witness :
    optStrTruthy (some "k") = true ∧ (jsTrim ((some "ab" : Option String).getD "")).isEmpty = false ∧
      serverJsPathA stubHmac (some "k") (some "ab") "body" = PathAOutcome.crash :=
  ⟨by decide, by decide,
    c1_serverJs_pathA_always_crashes stubHmac (some "k") (some "ab") "body"
      (by decide) (by decide)⟩

/-- C2 counterexample: all five provider-B headers are present (non-empty),
yet with no provider-B webhook id configured the request is handled by path
A, not path B — the claim's "routed to path B exactly when all five headers
are present" fails. -/
theorem c2_counterexample :
    hasPayPalHeaders reqFivePP = true ∧
      (webhookHandler stubHmac envEmpty reqFivePP stubOracle []).pathTag = PathTag.pathA := by
  constructor
  · decide
  · rfl

/-- C2 (amended): a `POST /webhook` request is routed to path B exactly when
all five provider-B headers are present with non-empty values AND the
provider-B webhook id is configured (non-empty); otherwise path A is
attempted (src/server.js line 131: `hasPayPalHeaders && paypalWebhookId`). -/
theorem c2_dispatch_amended (hmacHex : List Nat → List Nat → String) (env : Env) (req : Req)
    (orc : PPOracle) (b : Board) :
    (webhookHandler hmacHex env req orc b).pathTag = PathTag.pathB ↔
      (hasPayPalHeaders req = true ∧ optStrTruthy env.paypalWebhookId = true) := by
  unfold webhookHandler
  by_cases h : routesToPathB env req = true
  · rw [if_pos h, pathBResult_tag]
    unfold routesToPathB at h
    rw [Bool.and_eq_true] at h
    simp [h.1, h.2]
  · rw [if_neg h, pathAResult_tag]
    constructor
    · intro hpa
      exact PathTag.noConfusion hpa
    · rintro ⟨h1, h2⟩
      refine absurd ?_ h
      rw [routesToPathB, h1, h2]
      rfl

/-- C3: on a path-A request with the signing secret unconfigured (or empty)
or the signature header absent/empty (after trimming), the handler responds
`401` without computing any HMAC digest and without touching the leaderboard
(src/server.js line 201, which precedes all HMAC code). -/
theorem c3_guard_401_no_hmac (hmacHex : List Nat → List Nat → String) (env : Env) (req : Req)
    (orc : PPOracle) (b : Board)
    (hroute : routesToPathB env req = false)
    (hguard : optStrTruthy env.zettleSigningKey = false ∨
      (jsTrim (req.sigHeader.getD "")).isEmpty = true) :
    (webhookHandler hmacHex env req orc b).status = 401 ∧
      (webhookHandler hmacHex env req orc b).hmacUses = 0 ∧
      (webhookHandler hmacHex env req orc b).board = b := by
  unfold webhookHandler
  rw [hroute]
  simp only [Bool.false_eq_true, if_false]
  unfold pathAResult
  have hcond : ¬ optStrTruthy env.zettleSigningKey = true ∨
      (jsTrim (req.sigHeader.getD "")).isEmpty = true := by
    rcases hguard with h | h
    · left
      simp [h]
    · right
      exact h
  rw [if_pos hcond]
  exact ⟨rfl, rfl, rfl⟩

/-- Witness for C3: a request with no signature header against an
environment with no signing key. -/
theorem c3_witness :
    (webhookHandler stubHmac envEmpty reqEmpty stubOracle []).status = 401 ∧
      (webhookHandler stubHmac envEmpty reqEmpty stubOracle []).hmacUses = 0 ∧
      (webhookHandler stubHmac envEmpty reqEmpty stubOracle []).board = [] :=
  c3_guard_401_no_hmac stubHmac envEmpty reqEmpty stubOracle [] (by decide)
    (Or.inl (by decide))

/-- An environment with only the provider-B webhook id configured. -/
def envPPId : Env := { zettleSigningKey := none, paypalWebhookId := some "w" }

/-- C4 counterexample: with all five provider-B headers and the webhook id
present but a body that is not valid JSON (`"hei"`), the handler responds
`400` (src/server.js line 136) — a status outside the claim's
{200, 401, 500}. -/
theorem c4_counterexample :
    (webhookHandler stubHmac envPPId reqFivePP stubOracle []).status = 400 ∧
      (400 : Nat) ≠ 200 ∧ (400 : Nat) ≠ 401 ∧ (400 : Nat) ≠ 500 := by
  refine ⟨?_, by decide, by decide, by decide⟩
  rfl

/-- C4 (amended): every response of `POST /webhook` has status 200, 400, 401
or 500; it is 400 exactly when the request was routed to path B and the raw
body failed to parse as JSON (the parse precedes verification on path B);
and it is 200 exactly when verification succeeded — on path B a parsed body
plus a 2xx verify response with the SUCCESS literal, on path A a passing
HMAC comparison — unconditionally, even when body processing afterwards
fails. -/
theorem c4_status_amended (hmacHex : List Nat → List Nat → String) (env : Env) (req : Req)
    (orc : PPOracle) (b : Board) :
    ((webhookHandler hmacHex env req orc b).status = 200 ∨
      (webhookHandler hmacHex env req orc b).status = 400 ∨
      (webhookHandler hmacHex env req orc b).status = 401 ∨
      (webhookHandler hmacHex env req orc b).status = 500) ∧
    ((webhookHandler hmacHex env req orc b).status = 400 ↔
      (routesToPathB env req = true ∧ jsonParse req.rawBody = none)) ∧
    ((webhookHandler hmacHex env req orc b).status = 200 ↔
      ((routesToPathB env req = true ∧ (jsonParse req.rawBody).isSome = true ∧
          pathBVerifiedB orc = true) ∨
        (routesToPathB env req = false ∧ pathAAccepts hmacHex env req = true))) := by
  unfold webhookHandler
  by_cases h : routesToPathB env req = true
  · rw [if_pos h]
    refine ⟨pathBResult_status req orc b, ?_, ?_⟩
    · rw [pathBResult_status_400_iff]
      simp [h]
    · rw [pathBResult_status_200_iff]
      simp [h]
  · rw [if_neg h]
    have h' : routesToPathB env req = false := by
      cases hb : routesToPathB env req
      · rfl
      · exact absurd hb h
    refine ⟨?_, ?_, ?_⟩
    · rcases pathAResult_status hmacHex env req b with h2 | h2
      · exact Or.inl h2
      · exact Or.inr (Or.inr (Or.inl h2))
    · constructor
      · intro h4
        rcases pathAResult_status hmacHex env req b with h2 | h2 <;> omega
      · rintro ⟨hr, _⟩
        exact absurd hr h
    · rw [pathAResult_status_200_iff]
      simp [h']

/-- C5: `top20` returns at most 20 entries; the result is sorted by count
descending; it is the 20-prefix of the stable descending sort of the entries
taken in insertion order; and for every count value the sort preserves the
insertion-order subsequence of the entries carrying that count (the stable
tie-break: of two equal counts, the first-inserted name stays first).  The
call is a pure function of the board, so it cannot modify the leaderboard. -/
theorem c5_top20_sorted_stable (b : Board) :
    (top20 b).length ≤ 20 ∧
      List.Pairwise (fun x y : Entry => y.count ≤ x.count) (top20 b) ∧
      top20 b = (sortDesc (entriesOf b)).take 20 ∧
      (∀ c : Int, (sortDesc (entriesOf b)).filter (fun e => e.count == c) =
        (entriesOf b).filter (fun e => e.count == c)) := by
  refine ⟨?_, ?_, rfl, fun c => filter_sortDesc c (entriesOf b)⟩
  · unfold top20
    rw [List.length_take]
    exact min_le_left _ _
  · unfold top20
    exact List.Pairwise.sublist (List.take_sublist 20 _) (pairwise_sortDesc _)

/-- A product item whose numeric quantity is negative. -/
def c6Item : Json := .obj [("name", .str "A"), ("quantity", .num (-2))]

/-- A path-A body containing `c6Item`. -/
def c6Body : Json := .obj [("payload", .obj [("products", .arr [c6Item])])]

/-- C6 counterexample: the claim says a non-positive quantity is coerced to
1, but `Number(-2) || 1` keeps `-2` (only `NaN` and `0` are falsy): the item
`{name: "A", quantity: -2}` is bumped by `-2`, not `1`. -/
theorem c6_counterexample :
    itemQty c6Item = -2 ∧
      (processZettleBody c6Body []).1 = [(.str "A", -2)] ∧
      (-2 : Int) ≠ 1 := by
  refine ⟨by decide, by decide, by decide⟩

/-- C6 (amended): per item applied via `bump`, the quantity is the literal 1
when the field is missing or `null`; `NaN` and `0` coerce to 1; any other
numeric value — including negative ones — is added as-is; the name falls
through `name`, `productName`, `variantName` to the sentinel `"Ukjent"` when
all three are falsy; the coerced quantity is added to the product's running
total, created at 0 if absent, other totals untouched; the per-item
operation is total (never fails). -/
theorem c6_item_amended (p : Json) (b : Board) :
    ((jsGet p "quantity" = none ∨ jsGet p "quantity" = some .null) → itemQty p = 1) ∧
    (∀ q, jsGet p "quantity" = some q → q ≠ .null → jsToNumber q = none → itemQty p = 1) ∧
    (∀ q, jsGet p "quantity" = some q → q ≠ .null → jsToNumber q = some 0 → itemQty p = 1) ∧
    (∀ q n, jsGet p "quantity" = some q → q ≠ .null → jsToNumber q = some n → n ≠ 0 →
      itemQty p = n) ∧
    ((optTruthy (jsGet p "name") = false ∧ optTruthy (jsGet p "productName") = false ∧
        optTruthy (jsGet p "variantName") = false) → zettleItemName p = .str "Ukjent") ∧
    (getCount (bump (zettleItemName p) (itemQty p) b) (zettleItemName p) =
      some (countD b (zettleItemName p) + itemQty p)) ∧
    (∀ m, m ≠ zettleItemName p →
      getCount (bump (zettleItemName p) (itemQty p) b) m = getCount b m) := by
  refine ⟨?_, ?_, ?_, ?_, ?_, ?_, ?_⟩
  · intro h
    rcases h with h | h <;> simp [itemQty, h]
  · intro q hq hnull hnan
    unfold itemQty
    rw [hq]
    cases q with
    | null => exact absurd rfl hnull
    | bool c => simp [hnan]
    | num c => simp [hnan]
    | str c => simp [hnan]
    | arr c => simp [hnan]
    | obj c => simp [hnan]
  · intro q hq hnull hzero
    unfold itemQty
    rw [hq]
    cases q with
    | null => exact absurd rfl hnull
    | bool c => simp [hzero]
    | num c => simp [hzero]
    | str c => simp [hzero]
    | arr c => simp [hzero]
    | obj c => simp [hzero]
  · intro q n hq hnull hn hne
    unfold itemQty
    rw [hq]
    cases q with
    | null => exact absurd rfl hnull
    | bool c => simp [hn, hne]
    | num c => simp [hn, hne]
    | str c => simp [hn, hne]
    | arr c => simp [hn, hne]
    | obj c => simp [hn, hne]
  · rintro ⟨h1, h2, h3⟩
    refine firstTruthy_all_false _ _ ?_
    intro x hx
    simp only [List.mem_cons, List.not_mem_nil, or_false] at hx
    rcases hx with rfl | rfl | rfl
    · exact h1
    · exact h2
    · exact h3
  · exact getCount_bump_self _ _ b
  · intro m hm
    exact getCount_bump_other _ m _ (fun he => hm he.symm) b

/-- Witness for C6 at a concrete item (`{productName: "Tea"}` with no
quantity). -/
theorem c6_witness :
    itemQty (Json.obj [("productName", Json.str "Tea")]) = 1 ∧
      getCount (bump (zettleItemName (Json.obj [("productName", Json.str "Tea")]))
          (itemQty (Json.obj [("productName", Json.str "Tea")])) [])
        (zettleItemName (Json.obj [("productName", Json.str "Tea")])) = some 1 :=
  ⟨(c6_item_amended (Json.obj [("productName", Json.str "Tea")]) []).1 (Or.inl (by decide)),
    by
      have h := (c6_item_amended (Json.obj [("productName", Json.str "Tea")]) []).2.2.2.2.2.1
      rw [h]
      decide⟩

/-- A path-A body adding 3 to product `"A"`. -/
def c7Body3 : Json :=
  .obj [("payload", .obj [("products", .arr [.obj [("name", .str "A"), ("quantity", .num 3)]])])]

/-- A path-A body adding `-2` to product `"A"`. -/
def c7BodyNeg : Json :=
  .obj [("payload", .obj [("products", .arr [.obj [("name", .str "A"), ("quantity", .num (-2))]])])]

/-- C7 counterexample: states reachable by webhook processing violate the
claim — after processing a body with quantity `-2` the total of `"A"` is
`-2 < 0` (not a non-negative integer), and a total can decrease from one
operation to the next (3, then 1). -/
theorem c7_counterexample :
    countD (applyOps [WebhookOp.zettle c7Body3] []) (.str "A") = 3 ∧
      countD (applyOps [WebhookOp.zettle c7Body3, WebhookOp.zettle c7BodyNeg] []) (.str "A") = 1 ∧
      ¬ (3 : Int) ≤ 1 ∧
      countD (applyOps [WebhookOp.zettle c7BodyNeg] []) (.str "A") = -2 ∧
      (-2 : Int) < 0 := by
  refine ⟨by decide, by decide, by decide, by decide, by decide⟩

/-- C7 (amended): no leaderboard entry is ever removed by any
webhook-processing operation (totals are integers, keys only accumulate);
every processing operation mutates the leaderboard only through a list of
bumps; and along bumps whose quantities are all non-negative each total is
non-decreasing and stays non-negative.  (Negative quantities, which the
processors do produce from items with negative numeric `quantity` fields,
can decrease a total below zero — see the counterexample.) -/
theorem c7_invariants_amended :
    (∀ (ops : List WebhookOp) (b : Board) (m : Json), hasKey b m = true →
      hasKey (applyOps ops b) m = true) ∧
    (∀ (op : WebhookOp) (b : Board), ∃ bl : List (Json × Int),
      applyOp b op = applyBumps bl b) ∧
    (∀ (bl : List (Json × Int)) (b : Board) (m : Json), (∀ p ∈ bl, 0 ≤ p.2) →
      countD b m ≤ countD (applyBumps bl b) m) ∧
    (∀ (bl : List (Json × Int)) (b : Board) (m : Json), (∀ p ∈ bl, 0 ≤ p.2) →
      (∀ k, 0 ≤ countD b k) → 0 ≤ countD (applyBumps bl b) m) := by
  refine ⟨fun ops b m h => hasKey_applyOps m ops b h,
    fun op b => applyOp_factors op b,
    fun bl b m h => countD_le_applyBumps m bl b h,
    fun bl b m h hb => le_trans (hb m) (countD_le_applyBumps m bl b h)⟩

/-- Witness for C7 at concrete states: the key `"B"` survives a processing
operation, and a non-negative bump list keeps totals monotone and
non-negative. -/
theorem c7_witness :
    hasKey (applyOps [WebhookOp.zettle c7Body3] [(Json.str "B", 5)]) (Json.str "B") = true ∧
      countD [(Json.str "B", 5)] (Json.str "B") ≤
        countD (applyBumps [(Json.str "A", 2)] [(Json.str "B", 5)]) (Json.str "B") ∧
      0 ≤ countD (applyBumps [(Json.str "A", 2)] [(Json.str "B", 5)]) (Json.str "A") :=
  ⟨c7_invariants_amended.1 [WebhookOp.zettle c7Body3] [(Json.str "B", 5)] (Json.str "B")
      (by decide),
    c7_invariants_amended.2.2.1 [(Json.str "A", 2)] [(Json.str "B", 5)] (Json.str "B")
      (by decide),
    c7_invariants_amended.2.2.2 [(Json.str "A", 2)] [(Json.str "B", 5)] (Json.str "A")
      (by decide)
      (by
        intro k
        simp only [countD, getCount]
        cases h : Json.beq (Json.str "B") k <;> simp [h])⟩

/-- The JSON encoding of the object `{"products":[{"name":"A","quantity":2}]}`. -/
def c8PayloadStr : String := "\x7b\"products\":[\x7b\"name\":\"A\",\"quantity\":2\x7d]\x7d"

/-- A verified body whose `payload` field is the JSON *string* above. -/
def c8BodyStr : Json := .obj [("payload", .str c8PayloadStr)]

/-- The same body with the payload object inline. -/
def c8BodyInline : Json :=
  .obj [("payload", .obj [("products", .arr [.obj [("name", .str "A"), ("quantity", .num 2)]])])]

/-- C8 counterexample: the string payload really is the JSON encoding of the
inline object, yet the src/server.js processor performs no second decode: the
string-payload body produces no bumps while the inline body adds `A: 2` —
the two do not produce the same bumps, contradicting the claim. -/
theorem c8_counterexample :
    jsonParse c8PayloadStr =
        some (.obj [("products", .arr [.obj [("name", .str "A"), ("quantity", .num 2)]])]) ∧
      processZettleBody c8BodyStr [] = ([], false) ∧
      processZettleBody c8BodyInline [] = ([(.str "A", 2)], false) ∧
      ([] : Board) ≠ [(.str "A", 2)] := by
  refine ⟨by decide, by decide, by decide, by decide⟩

/-- C8 (amended): the src/server.js path-A processor attempts no second JSON
decode of a string-valued `payload` field (unlike the earlier variant
src/unnamed/part_000 lines 164-177): for every verified body whose `payload`
is a string, `payload.products` is `undefined`, so processing silently
performs no bumps and leaves the leaderboard unchanged, without error. -/
theorem c8_no_second_decode (body : Json) (b : Board) (s : String)
    (h : jsGet body "payload" = some (.str s)) :
    processZettleBody body b = (b, false) := by
  unfold processZettleBody jsGet2
  rw [h]
  rfl

/-- Witness for C8 at a concrete string-payload body. -/
theorem c8_witness :
    jsGet (Json.obj [("payload", Json.str "zzz")]) "payload" = some (Json.str "zzz") ∧
      processZettleBody (Json.obj [("payload", Json.str "zzz")]) [] = ([], false) :=
  ⟨by decide, c8_no_second_decode (Json.obj [("payload", Json.str "zzz")]) [] "zzz" (by decide)⟩

/-- A verified path-B body with one purchase unit that has no `items` array. -/
def c9BadBody : Json := .obj [("resource", .obj [("purchase_units", .arr [.obj []])])]

/-- C9 counterexample: on a successfully verified body whose single purchase
unit lacks `items`, `flatMap` inserts an `undefined` element, `products` is
non-empty, and the loop throws on `p.name` — processing does not complete
without error (and no synthetic entry is bumped either). -/
theorem c9_counterexample : processPaypalBody c9BadBody [] = ([], true) := by
  decide

/-- C9 (amended): for every successfully verified path-B body that is
well-formed — `purchase_units` absent/`null`, or an array each of whose
units carries an array `items` field — processing completes without error:
every item of `resource.purchase_units[*].items[*]` is bumped with its name
(sentinel when absent/falsy) and coerced quantity, and when the units
flatten to no items exactly one synthetic entry keyed by
`resource.custom_id` (or the fixed sentinel) is bumped with quantity 1.  A
unit without an `items` array instead makes the loop throw after the `200`
acknowledgment. -/
theorem c9_pathB_amended (body : Json) (b : Board) (h : ppWellFormed body = true) :
    (processPaypalBody body b).2 = false ∧
      (processPaypalBody body b).1 =
        (if ppItemsSpec body = [] then bump (ppSyntheticKey body) 1 b
         else applyBumps (ppItemsSpec body) b) := by
  rw [processPaypal_wf body b h]
  exact ⟨rfl, rfl⟩

/-- The claim's example body: `purchase_units: [{items: [{name: "Widget",
quantity: 3}]}]`. -/
def c9WidgetBody : Json :=
  .obj [("resource", .obj [("purchase_units",
    .arr [.obj [("items", .arr [.obj [("name", .str "Widget"), ("quantity", .num 3)]])]])])]

/-- Witness for C9 at the claim's example: the leaderboard gains
`Widget: 3`, with no processing error. -/
theorem c9_witness :
    ppWellFormed c9WidgetBody = true ∧
      (processPaypalBody c9WidgetBody []).2 = false ∧
      (processPaypalBody c9WidgetBody []).1 = [(Json.str "Widget", 3)] := by
  have h := c9_pathB_amended c9WidgetBody [] (by decide)
  refine ⟨by decide, h.1, ?_⟩
  rw [h.2]
  decide

/-- C10 counterexample: the Zettle token getter performs no credential
check — with both credentials missing and an empty cache it still makes the
network call and does not fail with a configuration error; and the PayPal
getter with a fresh cached token returns it without any credential check
even though both credentials are missing. -/
theorem c10_counterexample :
    (getAccessToken none none ⟨none, 0⟩ 0 (.ok ("t", 3600))).networkCalled = true ∧
      (getAccessToken none none ⟨none, 0⟩ 0 (.ok ("t", 3600))).outcome = .ok "t" ∧
      (getPayPalAccessToken none none ⟨some "tok", 10000000⟩ 0
          (.ok ("t", 3600))).outcome = .ok "tok" ∧
      (getPayPalAccessToken none none ⟨some "tok", 10000000⟩ 0
          (.ok ("t", 3600))).networkCalled = false := by
  refine ⟨rfl, rfl, rfl, rfl⟩

/-- C10 (amended): when a refresh is needed (no fresh cached token), the
PayPal token getter fails with a configuration error before any network
call if either credential is missing or empty; the Zettle token getter
performs no credential check — on every refresh it makes the network call
and can never fail with a configuration error. -/
theorem c10_token_amended :
    (∀ (cid csec : Option String) (st : TokenCache) (now : Int)
        (f : Except Unit (String × Int)),
      ¬ (optStrTruthy st.cached = true ∧ now < st.expiresAt - 60000) →
      (optStrTruthy cid = false ∨ optStrTruthy csec = false) →
      getPayPalAccessToken cid csec st now f =
        { outcome := .error .config, cache := st, networkCalled := false }) ∧
    (∀ (cid key : Option String) (st : TokenCache) (now : Int)
        (f : Except Unit (String × Int)),
      ¬ (optStrTruthy st.cached = true ∧ now < st.expiresAt - 60000) →
      ((getAccessToken cid key st now f).networkCalled = true ∧
        (getAccessToken cid key st now f).outcome ≠ .error .config)) := by
  constructor
  · intro cid csec st now f hfresh hcred
    unfold getPayPalAccessToken
    rw [if_neg hfresh, if_pos]
    rcases hcred with h | h
    · left
      simp [h]
    · right
      simp [h]
  · intro cid key st now f hfresh
    unfold getAccessToken
    rw [if_neg hfresh]
    cases f with
    | error e => exact ⟨rfl, by simp⟩
    | ok r => exact ⟨rfl, by simp⟩

/-- Witness for C10: concrete missing-credential calls. -/
theorem c10_witness :
    getPayPalAccessToken none (some "s") ⟨none, 0⟩ 0 (.ok ("t", 3600)) =
        { outcome := .error .config, cache := ⟨none, 0⟩, networkCalled := false } ∧
      (getAccessToken none none ⟨none, 0⟩ 0 (.error ())).networkCalled = true :=
  ⟨c10_token_amended.1 none (some "s") ⟨none, 0⟩ 0 (.ok ("t", 3600)) (by decide)
      (Or.inl (by decide)),
    (c10_token_amended.2 none none ⟨none, 0⟩ 0 (.error ()) (by decide)).1⟩
